import Mathlib

/-!
A verification development for `mobile/ios/Runner/Bridging-Header.h`.

The header is a guarded list of system includes.  Its behaviour is the behaviour
of the C preprocessor on its seventeen lines, so the embedding has three layers:

* `sourceLines`: the text of the header, line by line;
* `stripComments` / `classify` / `lexLines`: comment removal and directive
  recognition, one physical line at a time;
* `step` / `run` / `preprocess`: the conditional-inclusion semantics of the
  directives the header uses (`#ifndef`, `#define`, `#include <...>`, `#endif`),
  as a function from a definition environment to the emitted output and the
  new environment.

The five system headers are not part of the repository.  What processing
`#include <h>` does to the environment is therefore a parameter `inc` of the
semantics, and every theorem says for which `inc` it holds.
-/

namespace BridgingHeader

/-! ## Definition environment -/

/-- The object-like definitions in force, newest first: name and replacement text. -/
abbrev Env := List (String × String)

/-- Replacement text of `name`, when `name` is defined (the newest entry wins). -/
def Env.lookup (name : String) : Env → Option String
  | [] => none
  | (k, body) :: rest => if k = name then some body else Env.lookup name rest

/-- The test performed by `#ifdef` / `#ifndef`: whether `name` is defined, with any value. -/
def Env.isDefined (name : String) (env : Env) : Bool :=
  (Env.lookup name env).isSome

/-- Effect of `#define name body`. -/
def Env.define (name body : String) (env : Env) : Env :=
  (name, body) :: env

/-! ## Lines of a source file and preprocessor output -/

/-- One physical source line after comment removal. -/
inductive Line where
  /-- Only white space (an empty line or a line holding only comments). -/
  | blank
  /-- A line that is not a directive: tokens of the program proper. -/
  | text (tokens : String)
  /-- The directive `#ifndef name`. -/
  | ifndef (name : String)
  /-- The directive `#define name body`. -/
  | define (name body : String)
  /-- The directive `#include <header>`. -/
  | includeSys (header : String)
  /-- The directive `#endif`. -/
  | endif
  /-- Any directive outside the fragment modelled here. -/
  | unsupported
  deriving DecidableEq, Repr

/-- One item of preprocessor output. -/
inductive Out where
  /-- An include directive `#include <header>` reached in an active group. -/
  | includeSys (header : String)
  /-- Program tokens (declarations, definitions) of the file itself. -/
  | tokens (s : String)
  deriving DecidableEq, Repr

/-- Where the comment scanner stands: in code, in code just after a `/`,
inside a block comment, or inside a block comment just after a `*`. -/
inductive CMode where
  | code
  | slash
  | block
  | star
  deriving DecidableEq, Repr

/-- Removes comments from the rest of a line, scanning from mode `m`.  The
result says whether the line ends inside a block comment.  A block comment is
replaced by one space, a line comment runs to the end of the line.  (String
and character literals are not treated specially.) -/
def stripFrom : CMode → List Char → List Char × Bool
  | .code, [] => ([], false)
  | .slash, [] => (['/'], false)
  | .block, [] => ([], true)
  | .star, [] => ([], true)
  | .code, c :: rest =>
    if c = '/' then stripFrom .slash rest
    else
      let r := stripFrom .code rest
      (c :: r.1, r.2)
  | .slash, c :: rest =>
    if c = '/' then ([], false)
    else if c = '*' then
      let r := stripFrom .block rest
      (' ' :: r.1, r.2)
    else
      let r := stripFrom .code rest
      ('/' :: c :: r.1, r.2)
  | .block, c :: rest =>
    if c = '*' then stripFrom .star rest else stripFrom .block rest
  | .star, c :: rest =>
    if c = '/' then stripFrom .code rest
    else if c = '*' then stripFrom .star rest
    else stripFrom .block rest

/-- Removes comments from one line.  The flag tells whether the line starts
inside a block comment; the result carries the flag for the next line. -/
def stripComments (inBlock : Bool) (cs : List Char) : List Char × Bool :=
  stripFrom (if inBlock then .block else .code) cs

/-- Horizontal white space. -/
def isBlank (c : Char) : Bool := c = ' ' || c = '\t'

/-- Characters of an identifier. -/
def isIdentChar (c : Char) : Bool := c.isAlphanum || c = '_'

/-- Drops leading white space. -/
def skipBlanks : List Char → List Char
  | [] => []
  | c :: rest => if isBlank c then skipBlanks rest else c :: rest

/-- Drops trailing white space. -/
def trimRight (cs : List Char) : List Char :=
  (skipBlanks cs.reverse).reverse

/-- Splits off the longest leading run of identifier characters. -/
def spanIdent : List Char → List Char × List Char
  | [] => ([], [])
  | c :: rest =>
    if isIdentChar c then
      let r := spanIdent rest
      (c :: r.1, r.2)
    else ([], c :: rest)

/-- Splits at the first `>`: the header name and what follows the `>`;
`none` when there is no closing `>`. -/
def spanHeader : List Char → Option (List Char × List Char)
  | [] => none
  | c :: rest =>
    if c = '>' then some ([], rest)
    else (spanHeader rest).map (fun r => (c :: r.1, r.2))

/-- Recognises the directive whose name is `name` and whose operand text
(leading white space dropped) is `arg`. -/
def lexDirective (name : String) (arg : List Char) : Line :=
  if name = "ifndef" then
    let r := spanIdent arg
    if r.1 ≠ [] ∧ skipBlanks r.2 = [] then .ifndef (String.mk r.1) else .unsupported
  else if name = "define" then
    let r := spanIdent arg
    -- an object-like definition: the name is followed by white space or the end of line
    match r.1, r.2 with
    | [], _ => .unsupported
    | _ :: _, [] => .define (String.mk r.1) ""
    | _ :: _, c :: rest =>
      if isBlank c then .define (String.mk r.1) (String.mk (trimRight (skipBlanks rest)))
      else .unsupported
  else if name = "include" then
    match arg with
    | '<' :: rest =>
      match spanHeader rest with
      | some (h, tail) => if skipBlanks tail = [] then .includeSys (String.mk h) else .unsupported
      | none => .unsupported
    | _ => .unsupported
  else if name = "endif" then
    if arg = [] then .endif else .unsupported
  else .unsupported

/-- Classifies one comment-free line. -/
def classify (cs : List Char) : Line :=
  match skipBlanks cs with
  | [] => .blank
  | '#' :: rest =>
    let r := spanIdent (skipBlanks rest)
    lexDirective (String.mk r.1) (skipBlanks r.2)
  | c :: rest => .text (String.mk (trimRight (c :: rest)))

/-- Lexes the physical lines of a file, threading the block-comment flag. -/
def lexLines : Bool → List String → List Line
  | _, [] => []
  | inBlock, l :: ls =>
    let r := stripComments inBlock l.toList
    classify r.1 :: lexLines r.2 ls

/-! ## The header -/

/-- The seventeen lines of `Bridging-Header.h`, verbatim. -/
def sourceLines : List String :=
  [ "//",
    "//  Bridging-Header.h",
    "//  Runner",
    "//",
    "//  用于桥接 C 函数到 Swift，支持调试模式检测和网络接口",
    "//",
    "",
    "#ifndef Bridging_Header_h",
    "#define Bridging_Header_h",
    "",
    "#include <sys/sysctl.h>",
    "#include <sys/types.h>",
    "#include <sys/proc.h>",
    "#include <ifaddrs.h>",
    "#include <netdb.h>",
    "",
    "#endif /* Bridging_Header_h */" ]

/-- The header as a list of lexed lines. -/
def Bridging_Header_h : List Line :=
  lexLines false sourceLines

/-! ## Conditional inclusion -/

/-- What the included headers do: `inc h env` is the environment after the
header `<h>` has been processed from `env` (it may define, redefine or
undefine names). -/
abbrev Headers := String → Env → Env

/-- State of the preprocessor while it walks through a file. -/
structure PPState where
  /-- Definitions in force. -/
  env : Env
  /-- Output emitted so far, in order. -/
  out : List Out
  /-- One flag per open conditional, innermost first: whether its group is
  being processed. -/
  conds : List Bool
  deriving DecidableEq, Repr

/-- Lines are processed when every open conditional group is active. -/
def PPState.active (st : PPState) : Bool :=
  st.conds.all id

/-- Processes one line.  `none` reports an error: an `#endif` without an open
conditional, or a directive outside the modelled fragment.  An include
directive in an active group is emitted, and the included header acts on the
environment through `inc`. -/
def step (inc : Headers) (st : PPState) : Line → Option PPState
  | .blank => some st
  | .text t =>
    some (if st.active then { st with out := st.out ++ [Out.tokens t] } else st)
  | .ifndef name =>
    some { st with conds := (st.active && !Env.isDefined name st.env) :: st.conds }
  | .define name body =>
    some (if st.active then { st with env := Env.define name body st.env } else st)
  | .includeSys h =>
    some (if st.active then
        { st with env := inc h st.env, out := st.out ++ [Out.includeSys h] }
      else st)
  | .endif =>
    match st.conds with
    | [] => none
    | _ :: cs => some { st with conds := cs }
  | .unsupported => none

/-- Processes the lines of a file in order. -/
def run (inc : Headers) (st : PPState) : List Line → Option PPState
  | [] => some st
  | l :: ls =>
    match step inc st l with
    | none => none
    | some st1 => run inc st1 ls

/-- Preprocesses a whole file from the environment `env`: the emitted output
and the environment afterwards.  A conditional left open at the end of the
file is an error. -/
def preprocess (inc : Headers) (file : List Line) (env : Env) : Option (List Out × Env) :=
  match run inc { env := env, out := [], conds := [] } file with
  | some st => if st.conds = [] then some (st.out, st.env) else none
  | none => none

/-- Includes `file` twice in a row: the second inclusion starts from the
environment the first one leaves, and the outputs are concatenated. -/
def includeTwice (inc : Headers) (file : List Line) (env : Env) : Option (List Out × Env) :=
  match preprocess inc file env with
  | none => none
  | some (out1, env1) =>
    match preprocess inc file env1 with
    | none => none
    | some (out2, env2) => some (out1 ++ out2, env2)

/-- The five system includes of the header, in source order. -/
def systemIncludes : List Out :=
  [ Out.includeSys "sys/sysctl.h",
    Out.includeSys "sys/types.h",
    Out.includeSys "sys/proc.h",
    Out.includeSys "ifaddrs.h",
    Out.includeSys "netdb.h" ]

/-- The environment after the five system headers have been processed from
`env`, in source order. -/
def headerEffects (inc : Headers) (env : Env) : Env :=
  inc "netdb.h" (inc "ifaddrs.h" (inc "sys/proc.h" (inc "sys/types.h"
    (inc "sys/sysctl.h" env))))

/-! ## Sample system headers -/

/-- System headers of which `sys/proc.h` defines `P_TRACED` and `netdb.h`
defines `AI_PASSIVE`, with their Darwin values; the others define nothing. -/
def sampleHeaders : Headers :=
  fun h env =>
    if h = "sys/proc.h" then Env.define "P_TRACED" "0x00000800" env
    else if h = "netdb.h" then Env.define "AI_PASSIVE" "0x00000001" env
    else env

/-! ## The lexed header -/

/-- Lexing the text of the header gives seven blank lines (six comment lines
and an empty one), the guard, the five includes and the closing `#endif`. -/
theorem Bridging_Header_h_lines :
    Bridging_Header_h =
      [ Line.blank, Line.blank, Line.blank, Line.blank, Line.blank, Line.blank, Line.blank,
        Line.ifndef "Bridging_Header_h",
        Line.define "Bridging_Header_h" "",
        Line.blank,
        Line.includeSys "sys/sysctl.h",
        Line.includeSys "sys/types.h",
        Line.includeSys "sys/proc.h",
        Line.includeSys "ifaddrs.h",
        Line.includeSys "netdb.h",
        Line.blank,
        Line.endif ] := by
  decide

/-! ## Helper lemmas -/

/-- A definition of one name does not change the lookup of another name. -/
theorem Env.lookup_define_of_ne (g body name : String) (env : Env) (h : name ≠ g) :
    Env.lookup name (Env.define g body env) = Env.lookup name env := by
  have hg : ¬ g = name := fun e => h e.symm
  simp [Env.define, Env.lookup, hg]

/-- Right after its definition a name looks up to its replacement text. -/
theorem Env.lookup_define_self (g body : String) (env : Env) :
    Env.lookup g (Env.define g body env) = some body := by
  simp [Env.define, Env.lookup]

/-- A name is defined right after its definition. -/
theorem Env.isDefined_define (g body : String) (env : Env) :
    Env.isDefined g (Env.define g body env) = true := by
  simp [Env.isDefined, Env.define, Env.lookup]

/-- Headers that leave the lookup of `name` alone leave it alone all five together. -/
theorem lookup_headerEffects (inc : Headers) (name : String) (env : Env)
    (hn : ∀ h e, Env.lookup name (inc h e) = Env.lookup name e) :
    Env.lookup name (headerEffects inc env) = Env.lookup name env := by
  simp [headerEffects, hn]

/-- Headers that never undefine the guard keep it defined all five together. -/
theorem isDefined_headerEffects (inc : Headers) (env : Env)
    (hk : ∀ h e, Env.isDefined "Bridging_Header_h" e = true →
      Env.isDefined "Bridging_Header_h" (inc h e) = true)
    (hd : Env.isDefined "Bridging_Header_h" env = true) :
    Env.isDefined "Bridging_Header_h" (headerEffects inc env) = true := by
  unfold headerEffects
  exact hk _ _ (hk _ _ (hk _ _ (hk _ _ (hk _ _ hd))))

/-- The sample headers never undefine the guard. -/
theorem sampleHeaders_keep_guard (h : String) (e : Env)
    (hd : Env.isDefined "Bridging_Header_h" e = true) :
    Env.isDefined "Bridging_Header_h" (sampleHeaders h e) = true := by
  unfold sampleHeaders
  split
  · simpa [Env.isDefined, Env.define, Env.lookup] using hd
  · split
    · simpa [Env.isDefined, Env.define, Env.lookup] using hd
    · exact hd

/-- The sample headers leave `DEBUG` alone. -/
theorem sampleHeaders_lookup_DEBUG (h : String) (e : Env) :
    Env.lookup "DEBUG" (sampleHeaders h e) = Env.lookup "DEBUG" e := by
  unfold sampleHeaders
  split
  · simp [Env.define, Env.lookup]
  · split
    · simp [Env.define, Env.lookup]
    · rfl

/-- Running over two files in a row is running over their concatenation. -/
theorem run_append (inc : Headers) (st : PPState) (xs ys : List Line) :
    run inc st (xs ++ ys) = (run inc st xs).bind (fun st1 => run inc st1 ys) := by
  induction xs generalizing st with
  | nil => rfl
  | cons l ls ih =>
    simp only [List.cons_append, run]
    cases step inc st l with
    | none => rfl
    | some st1 => exact ih st1

/-- With no conditional open and the guard not yet defined, a run over the
header appends its five includes to the output, defines the guard with an
empty replacement text, lets the five headers act in order and closes the
conditional it opened. -/
theorem run_of_undefined (inc : Headers) (env : Env) (out : List Out)
    (h : Env.isDefined "Bridging_Header_h" env = false) :
    run inc { env := env, out := out, conds := [] } Bridging_Header_h =
      some { env := headerEffects inc (Env.define "Bridging_Header_h" "" env),
             out := out ++ systemIncludes, conds := [] } := by
  rw [Bridging_Header_h_lines]
  simp [run, step, PPState.active, h, systemIncludes, headerEffects]

/-- With no conditional open and the guard already defined, a run over the
header changes nothing. -/
theorem run_of_defined (inc : Headers) (env : Env) (out : List Out)
    (h : Env.isDefined "Bridging_Header_h" env = true) :
    run inc { env := env, out := out, conds := [] } Bridging_Header_h =
      some { env := env, out := out, conds := [] } := by
  rw [Bridging_Header_h_lines]
  simp [run, step, PPState.active, h]

/-- With the guard not yet defined, the header emits its five includes, defines
the guard with an empty replacement text and lets the five headers act. -/
theorem preprocess_of_undefined (inc : Headers) (env : Env)
    (h : Env.isDefined "Bridging_Header_h" env = false) :
    preprocess inc Bridging_Header_h env =
      some (systemIncludes, headerEffects inc (Env.define "Bridging_Header_h" "" env)) := by
  simp [preprocess, run_of_undefined inc env [] h]

/-- With the guard already defined, the header emits nothing and changes nothing. -/
theorem preprocess_of_defined (inc : Headers) (env : Env)
    (h : Env.isDefined "Bridging_Header_h" env = true) :
    preprocess inc Bridging_Header_h env = some ([], env) := by
  simp [preprocess, run_of_defined inc env [] h]

/-- After the header has been processed once, with headers that never undefine
the guard, the guard is defined. -/
theorem isDefined_after (inc : Headers) (env : Env)
    (hk : ∀ h e, Env.isDefined "Bridging_Header_h" e = true →
      Env.isDefined "Bridging_Header_h" (inc h e) = true) :
    ∃ out1 env1, preprocess inc Bridging_Header_h env = some (out1, env1) ∧
      Env.isDefined "Bridging_Header_h" env1 = true := by
  cases h : Env.isDefined "Bridging_Header_h" env with
  | false =>
    exact ⟨_, _, preprocess_of_undefined inc env h,
      isDefined_headerEffects inc _ hk (Env.isDefined_define _ _ env)⟩
  | true =>
    exact ⟨_, _, preprocess_of_defined inc env h, h⟩

/-- A translation unit holding the text of the header twice is processed like
the header alone, with headers that never undefine the guard. -/
theorem preprocess_twice_text (inc : Headers) (env : Env)
    (hk : ∀ h e, Env.isDefined "Bridging_Header_h" e = true →
      Env.isDefined "Bridging_Header_h" (inc h e) = true) :
    preprocess inc (Bridging_Header_h ++ Bridging_Header_h) env =
      preprocess inc Bridging_Header_h env := by
  unfold preprocess
  rw [run_append]
  cases h : Env.isDefined "Bridging_Header_h" env with
  | false =>
    rw [run_of_undefined inc env [] h]
    simp [run_of_defined inc _ _
      (isDefined_headerEffects inc _ hk (Env.isDefined_define "Bridging_Header_h" "" env))]
  | true =>
    rw [run_of_defined inc env [] h]
    simp [run_of_defined inc env [] h]

/-! ## The claims -/

/-- C1: including `Bridging-Header.h` is idempotent.  For every initial
environment, and whatever the five system headers define as long as they do
not undefine `Bridging_Header_h`, processing the header twice in a row gives
the same emitted output and the same final environment as processing it once;
the first inclusion succeeds, and the second inclusion, started from the
environment the first one leaves, emits nothing and leaves that environment as
it is.  The same holds for a translation unit holding the text of the header
twice.  (Headers that define nothing are the special case `noHeaders`.) -/
theorem include_idempotent (inc : Headers) (env : Env)
    (hk : ∀ h e, Env.isDefined "Bridging_Header_h" e = true →
      Env.isDefined "Bridging_Header_h" (inc h e) = true) :
    includeTwice inc Bridging_Header_h env = preprocess inc Bridging_Header_h env ∧
    (∃ out1 env1, preprocess inc Bridging_Header_h env = some (out1, env1) ∧
      preprocess inc Bridging_Header_h env1 = some ([], env1)) ∧
    preprocess inc (Bridging_Header_h ++ Bridging_Header_h) env =
      preprocess inc Bridging_Header_h env := by
  obtain ⟨out1, env1, h1, hd⟩ := isDefined_after inc env hk
  have h2 := preprocess_of_defined inc env1 hd
  refine ⟨?_, ⟨out1, env1, h1, h2⟩, ?_⟩
  · simp [includeTwice, h1, h2]
  · exact preprocess_twice_text inc env hk

/-- Witness for C1: the sample headers, which define `P_TRACED` and
`AI_PASSIVE`, from an environment that defines `DEBUG` only. -/
theorem include_idempotent_witness :
    (∀ h e, Env.isDefined "Bridging_Header_h" e = true →
      Env.isDefined "Bridging_Header_h" (sampleHeaders h e) = true) ∧
    preprocess sampleHeaders Bridging_Header_h [("DEBUG", "1")] =
      some ([ Out.includeSys "sys/sysctl.h", Out.includeSys "sys/types.h",
              Out.includeSys "sys/proc.h", Out.includeSys "ifaddrs.h",
              Out.includeSys "netdb.h" ],
            [ ("AI_PASSIVE", "0x00000001"), ("P_TRACED", "0x00000800"),
              ("Bridging_Header_h", ""), ("DEBUG", "1") ]) ∧
    includeTwice sampleHeaders Bridging_Header_h [("DEBUG", "1")] =
      preprocess sampleHeaders Bridging_Header_h [("DEBUG", "1")] ∧
    (∃ out1 env1,
      preprocess sampleHeaders Bridging_Header_h [("DEBUG", "1")] = some (out1, env1) ∧
      preprocess sampleHeaders Bridging_Header_h env1 = some ([], env1)) ∧
    preprocess sampleHeaders (Bridging_Header_h ++ Bridging_Header_h) [("DEBUG", "1")] =
      preprocess sampleHeaders Bridging_Header_h [("DEBUG", "1")] :=
  ⟨sampleHeaders_keep_guard, by decide,
    include_idempotent sampleHeaders [("DEBUG", "1")] sampleHeaders_keep_guard⟩

/-- C2: for every environment in which `Bridging_Header_h` is not defined, and
whatever the system headers define, processing the header succeeds and emits
exactly the five system includes `sys/sysctl.h`, `sys/types.h`, `sys/proc.h`,
`ifaddrs.h`, `netdb.h`, in that order, each once, and nothing else. -/
theorem emits_five_includes (inc : Headers) (env : Env)
    (h : Env.isDefined "Bridging_Header_h" env = false) :
    (preprocess inc Bridging_Header_h env).map Prod.fst =
      some [ Out.includeSys "sys/sysctl.h",
             Out.includeSys "sys/types.h",
             Out.includeSys "sys/proc.h",
             Out.includeSys "ifaddrs.h",
             Out.includeSys "netdb.h" ] := by
  rw [preprocess_of_undefined inc env h]
  rfl

/-- Witness for C2: the sample headers, from an environment that defines
`DEBUG` but not the guard. -/
theorem emits_five_includes_witness :
    Env.isDefined "Bridging_Header_h" [("DEBUG", "1")] = false ∧
    (preprocess sampleHeaders Bridging_Header_h [("DEBUG", "1")]).map Prod.fst =
      some [ Out.includeSys "sys/sysctl.h",
             Out.includeSys "sys/types.h",
             Out.includeSys "sys/proc.h",
             Out.includeSys "ifaddrs.h",
             Out.includeSys "netdb.h" ] :=
  ⟨by decide, emits_five_includes sampleHeaders [("DEBUG", "1")] (by decide)⟩

/-- C4 as stated fails in its second half: with the sample headers and the
empty environment, in which `Bridging_Header_h` is not defined, there is no
result of processing the header in which the guard is defined and every other
name looks up as before, because `sys/proc.h` and `netdb.h` have defined
`P_TRACED` and `AI_PASSIVE`. -/
theorem frame_other_names_fails :
    Env.isDefined "Bridging_Header_h" [] = false ∧
    ¬ ∃ out env1, preprocess sampleHeaders Bridging_Header_h [] = some (out, env1) ∧
        Env.isDefined "Bridging_Header_h" env1 = true ∧
        ∀ name, name ≠ "Bridging_Header_h" →
          Env.lookup name env1 = Env.lookup name [] := by
  refine ⟨by decide, ?_⟩
  rintro ⟨out, env1, h1, -, h3⟩
  rw [preprocess_of_undefined sampleHeaders [] (by decide)] at h1
  have h4 := h3 "AI_PASSIVE" (by decide)
  simp only [Option.some.injEq, Prod.mk.injEq] at h1
  rw [← h1.2] at h4
  revert h4
  decide

/-- C4 amended: for every environment in which `Bridging_Header_h` is already
defined, with any value, processing the header emits no include directive at
all and leaves the environment unchanged, whatever the system headers define.
For every environment in which it is not defined, processing succeeds and the
environment afterwards is the one before with `Bridging_Header_h` defined
(empty replacement text) and then changed by the five system headers in source
order; so on every name those headers leave unchanged it differs from the one
before only in that `Bridging_Header_h` is now defined. -/
theorem guard_behaviour (inc : Headers) (env : Env) :
    (Env.isDefined "Bridging_Header_h" env = true →
      preprocess inc Bridging_Header_h env = some ([], env)) ∧
    (Env.isDefined "Bridging_Header_h" env = false →
      ∃ out env1, preprocess inc Bridging_Header_h env = some (out, env1) ∧
        env1 = inc "netdb.h" (inc "ifaddrs.h" (inc "sys/proc.h" (inc "sys/types.h"
          (inc "sys/sysctl.h" (Env.define "Bridging_Header_h" "" env))))) ∧
        ∀ name, (∀ h e, Env.lookup name (inc h e) = Env.lookup name e) →
          (name = "Bridging_Header_h" → Env.isDefined name env1 = true) ∧
          (name ≠ "Bridging_Header_h" → Env.lookup name env1 = Env.lookup name env)) := by
  refine ⟨preprocess_of_defined inc env, fun h => ?_⟩
  refine ⟨_, _, preprocess_of_undefined inc env h, rfl, fun name hn => ⟨?_, ?_⟩⟩
  · intro he
    subst he
    simp [Env.isDefined, lookup_headerEffects inc _ _ hn, Env.lookup_define_self]
  · intro hne
    rw [lookup_headerEffects inc name _ hn]
    exact Env.lookup_define_of_ne _ _ _ env hne

/-- Witness for C4 amended, with the sample headers: the guard defined with the
value `1`; and the guard not defined in an environment that defines `DEBUG`,
a name the sample headers leave alone. -/
theorem guard_behaviour_witness :
    (Env.isDefined "Bridging_Header_h" [("Bridging_Header_h", "1")] = true ∧
      preprocess sampleHeaders Bridging_Header_h [("Bridging_Header_h", "1")] =
        some ([], [("Bridging_Header_h", "1")])) ∧
    (Env.isDefined "Bridging_Header_h" [("DEBUG", "1")] = false ∧
      (∀ h e, Env.lookup "DEBUG" (sampleHeaders h e) = Env.lookup "DEBUG" e) ∧
      "DEBUG" ≠ "Bridging_Header_h" ∧
      ∃ out env1, preprocess sampleHeaders Bridging_Header_h [("DEBUG", "1")] = some (out, env1) ∧
        env1 = [ ("AI_PASSIVE", "0x00000001"), ("P_TRACED", "0x00000800"),
                 ("Bridging_Header_h", ""), ("DEBUG", "1") ] ∧
        Env.lookup "DEBUG" env1 = Env.lookup "DEBUG" [("DEBUG", "1")]) :=
  ⟨⟨by decide, (guard_behaviour sampleHeaders [("Bridging_Header_h", "1")]).1 (by decide)⟩,
    by decide, sampleHeaders_lookup_DEBUG, by decide,
    match (guard_behaviour sampleHeaders [("DEBUG", "1")]).2 (by decide) with
    | ⟨out, env1, h1, h2, h3⟩ =>
      ⟨out, env1, h1, h2.trans (by decide),
        ((h3 "DEBUG" sampleHeaders_lookup_DEBUG).2 (by decide))⟩⟩

end BridgingHeader
